import Mathlib

/-!
Verification of the `godeps/opus` bridge layer (libopus compiled to
WebAssembly, driven from Go through wazero).

The definitions below are a shallow embedding of the Go source:

* `int16SliceToByteSlice`, `int16SliceFromByteSlice` — the little-endian
  marshalling helpers of `wasm_context.go`;
* `errorMessage` — `Error.Error()` from `errors.go`;
* `Version`, `readCString` — `opus.go`;
* `mustReadInt32Constant`, `loadOpusConstants`, `getWasmContext`,
  `writeToMemory` — `wasm_context.go`;
* `Encoder.encode`, `Encoder.init`, the finalizer — `encoder.go`;
* `Decoder.Init` and its finalizer — `decoder.go`.

Machine integers are modelled as `Nat`/`Int` with explicit wrap-around where
the Go code truncates.  Every interaction with the sandbox (wazero) is
modelled by an environment structure describing the outcome of each external
call, and each operation additionally returns the trace of sandbox events it
performed, so that properties such as "performs no sandbox call" and "frees
both scratch allocations" are first-class statements.
-/

namespace Opus

/-! ### Two's-complement helpers -/

/-- Interpretation of a 16-bit pattern as a signed Go `int16`. -/
def toSigned16 (n : Nat) : Int :=
  if n < 32768 then (n : Int) else (n : Int) - 65536

/-- Interpretation of a 32-bit pattern as a signed Go `int32`
(`int32(val)` applied to the `uint32` read from linear memory). -/
def toSigned32 (n : Nat) : Int :=
  if n < 2147483648 then (n : Int) else (n : Int) - 4294967296

/-! ### Marshalling helpers (`wasm_context.go`) -/

/-- Go `byte(v)` for an `int16` value `v`: truncation to the low 8 bits. -/
def byteLo (v : Int) : Nat := (Int.emod v 256).toNat

/-- Go `byte(v >> 8)` for an `int16` value `v`: arithmetic shift right by 8
(floor division for the positive divisor 256) then truncation to 8 bits. -/
def byteHi (v : Int) : Nat := (Int.emod (Int.ediv v 256) 256).toNat

/-- Model of `int16SliceToByteSlice` from `wasm_context.go`:
`b[i*2] = byte(v); b[i*2+1] = byte(v >> 8)`. -/
def int16SliceToByteSlice (s : List Int) : List Nat :=
  s.flatMap (fun v => [byteLo v, byteHi v])

/-- Decoding step `int16(src[i*2]) | (int16(src[i*2+1]) << 8)`: the left shift of the
zero-extended high byte wraps modulo 2^16 and the bitwise or with the low
byte (below 256) is addition. -/
def int16OfBytes (lo hi : Nat) : Int :=
  toSigned16 ((lo + 256 * hi) % 65536)

/-- The loop body of `int16SliceFromByteSlice`: write decoded samples into
the destination, two source bytes at a time, leaving the tail of the
destination untouched. -/
def int16Fill : List Nat → List Int → List Int
  | lo :: hi :: src, _ :: dest => int16OfBytes lo hi :: int16Fill src dest
  | _, dest => dest

/-- Model of `int16SliceFromByteSlice` from `wasm_context.go`: guards on source
parity and destination size, then decodes in place. -/
def int16SliceFromByteSlice (src : List Nat) (dest : List Int) :
    Except String (List Int) :=
  if src.length % 2 ≠ 0 then
    .error "byte slice length is not a multiple of 2 for int16 conversion"
  else if dest.length * 2 < src.length then
    .error "destination int16 slice too small"
  else
    .ok (int16Fill src dest)

/-! ### C9: round-trip of the int16 marshalling helpers -/

theorem int16OfBytes_roundtrip (v : Int) (h1 : -32768 ≤ v) (h2 : v < 32768) :
    int16OfBytes (byteLo v) (byteHi v) = v := by
  have e1 : 256 * (Int.ediv v 256) + Int.emod v 256 = v :=
    Int.ediv_add_emod v 256
  have e2 : 256 * (Int.ediv (Int.ediv v 256) 256) +
      Int.emod (Int.ediv v 256) 256 = Int.ediv v 256 :=
    Int.ediv_add_emod (Int.ediv v 256) 256
  have p1 : 0 ≤ Int.emod v 256 := Int.emod_nonneg v (by norm_num)
  have p2 : Int.emod v 256 < 256 := Int.emod_lt_of_pos v (by norm_num)
  have p3 : 0 ≤ Int.emod (Int.ediv v 256) 256 :=
    Int.emod_nonneg _ (by norm_num)
  have p4 : Int.emod (Int.ediv v 256) 256 < 256 :=
    Int.emod_lt_of_pos _ (by norm_num)
  simp only [int16OfBytes, byteLo, byteHi, toSigned16]
  split <;> omega

theorem length_int16SliceToByteSlice (s : List Int) :
    (int16SliceToByteSlice s).length = 2 * s.length := by
  induction s with
  | nil => simp [int16SliceToByteSlice]
  | cons v s ih =>
      simp [int16SliceToByteSlice] at ih ⊢
      omega

theorem int16Fill_toByteSlice (s dest : List Int)
    (hrange : ∀ v ∈ s, -32768 ≤ v ∧ v < 32768)
    (hlen : s.length ≤ dest.length) :
    int16Fill (int16SliceToByteSlice s) dest = s ++ dest.drop s.length := by
  induction s generalizing dest with
  | nil => simp [int16SliceToByteSlice, int16Fill]
  | cons v s ih =>
      cases dest with
      | nil => simp at hlen
      | cons d dest =>
          have hv := hrange v (by simp)
          have hrest : ∀ w ∈ s, -32768 ≤ w ∧ w < 32768 := by
            intro w hw; exact hrange w (by simp [hw])
          have hlen' : s.length ≤ dest.length := by
            simp at hlen; omega
          simp only [int16SliceToByteSlice, List.flatMap_cons] at *
          simp only [int16Fill, List.cons_append]
          rw [int16OfBytes_roundtrip v hv.1 hv.2]
          simp only [List.nil_append, List.length_cons, List.drop_succ_cons,
            List.cons.injEq, true_and]
          simpa [int16SliceToByteSlice] using ih dest hrest hlen'

/-- C9: the int16 marshalling helpers round-trip.  For every int16 slice `s`
(each element in the int16 range) and destination `dest` with
`len(dest)*2 >= len(s)*2`, `int16SliceFromByteSlice (int16SliceToByteSlice s) dest`
returns without error and the first `len(s)` destination entries equal `s`. -/
theorem int16_marshalling_roundtrip (s dest : List Int)
    (hrange : ∀ v ∈ s, -32768 ≤ v ∧ v < 32768)
    (hlen : s.length * 2 ≤ dest.length * 2) :
    ∃ out, int16SliceFromByteSlice (int16SliceToByteSlice s) dest = .ok out ∧
      ∀ i, i < s.length → out.getD i 0 = s.getD i 0 := by
  have hl : s.length ≤ dest.length := by omega
  have hfill := int16Fill_toByteSlice s dest hrange hl
  refine ⟨int16Fill (int16SliceToByteSlice s) dest, ?_, ?_⟩
  · unfold int16SliceFromByteSlice
    rw [length_int16SliceToByteSlice]
    have h2 : 2 * s.length % 2 = 0 := by omega
    have h3 : ¬ dest.length * 2 < 2 * s.length := by omega
    simp [h2, h3]
  · intro i hi
    rw [hfill]
    have : i < s.length := hi
    simp [List.getD, List.getElem?_append_left, this]

/-- Witness for C9 at a concrete input. -/
theorem int16_marshalling_roundtrip_witness :
    ∃ out, int16SliceFromByteSlice
        (int16SliceToByteSlice [1000, -2, 0]) [9, 9, 9, 9] = .ok out ∧
      ∀ i, i < ([1000, -2, 0] : List Int).length →
        out.getD i 0 = ([1000, -2, 0] : List Int).getD i 0 :=
  int16_marshalling_roundtrip [1000, -2, 0] [9, 9, 9, 9]
    (by decide) (by decide)

/-! ### Error mapper (`errors.go`) -/

/-- The `Error` type of `errors.go` is an integer error code. -/
abbrev ErrorCode := Int

/-- Constant `ErrOK = Error(0)`: a hard-coded host-side literal in `errors.go`. -/
def ErrOK : ErrorCode := 0

/-- Constant `ErrBadArg = Error(-1)`: a hard-coded host-side literal in `errors.go`. -/
def ErrBadArg : ErrorCode := -1

/-- Constant `ErrBufferTooSmall = Error(-2)` from `errors.go`. -/
def ErrBufferTooSmall : ErrorCode := -2

/-- Constant `ErrInternalError = Error(-3)` from `errors.go`. -/
def ErrInternalError : ErrorCode := -3

/-- Constant `ErrInvalidPacket = Error(-4)` from `errors.go`. -/
def ErrInvalidPacket : ErrorCode := -4

/-- Constant `ErrUnimplemented = Error(-5)` from `errors.go`. -/
def ErrUnimplemented : ErrorCode := -5

/-- Constant `ErrInvalidState = Error(-6)` from `errors.go`. -/
def ErrInvalidState : ErrorCode := -6

/-- Constant `ErrAllocFail = Error(-7)` from `errors.go`. -/
def ErrAllocFail : ErrorCode := -7

/-- Environment for one `Error.Error()` call: the outcome of each stage of
message resolution (context acquisition, `opus_strerror` export lookup, the
call itself, and the read of the null-terminated string). -/
structure StrErrEnv where
  ctxOk : Bool
  strerrorExported : Bool
  callResult : Option Nat
  cstrAt : Nat → Option String

/-- Model of `Error.Error()` from `errors.go`: resolve a human-readable message via
the module's `opus_strerror`, degrading to a placeholder string containing
the numeric code whenever a stage fails. -/
def errorMessage (env : StrErrEnv) (e : ErrorCode) : String :=
  if env.ctxOk = false then
    "opus: error getting WASM context (" ++ toString e ++ ")"
  else if env.strerrorExported = false then
    "opus: opus_strerror not available in WASM (" ++ toString e ++ ")"
  else
    match env.callResult with
    | none => "opus: failed calling opus_strerror (" ++ toString e ++ ")"
    | some ptr =>
        match env.cstrAt ptr with
        | none => "opus: failed reading error string from WASM (" ++ toString e ++ ")"
        | some s => "opus: " ++ s

/-- C8: `Error.Error()` always returns a string; on each failing stage the
result is the corresponding generic placeholder containing the numeric code,
and only a fully successful resolution yields the module's message. -/
theorem errorMessage_total_and_placeholder (env : StrErrEnv) (e : ErrorCode) :
    (env.ctxOk = false →
      errorMessage env e = "opus: error getting WASM context (" ++ toString e ++ ")") ∧
    (env.ctxOk = true → env.strerrorExported = false →
      errorMessage env e = "opus: opus_strerror not available in WASM (" ++ toString e ++ ")") ∧
    (env.ctxOk = true → env.strerrorExported = true → env.callResult = none →
      errorMessage env e = "opus: failed calling opus_strerror (" ++ toString e ++ ")") ∧
    (∀ ptr, env.ctxOk = true → env.strerrorExported = true →
      env.callResult = some ptr → env.cstrAt ptr = none →
      errorMessage env e = "opus: failed reading error string from WASM (" ++ toString e ++ ")") ∧
    (∀ ptr s, env.ctxOk = true → env.strerrorExported = true →
      env.callResult = some ptr → env.cstrAt ptr = some s →
      errorMessage env e = "opus: " ++ s) := by
  refine ⟨?_, ?_, ?_, ?_, ?_⟩
  · intro h; simp [errorMessage, h]
  · intro h1 h2; simp [errorMessage, h1, h2]
  · intro h1 h2 h3; simp [errorMessage, h1, h2, h3]
  · intro ptr h1 h2 h3 h4; simp [errorMessage, h1, h2, h3, h4]
  · intro ptr s h1 h2 h3 h4; simp [errorMessage, h1, h2, h3, h4]

/-- Witness for C8 at a concrete failing environment. -/
theorem errorMessage_total_and_placeholder_witness :
    (StrErrEnv.mk false true (some 0) (fun _ => none)).ctxOk = false ∧
    errorMessage (StrErrEnv.mk false true (some 0) (fun _ => none)) (-4) =
      "opus: error getting WASM context (-4)" :=
  ⟨rfl, (errorMessage_total_and_placeholder
      (StrErrEnv.mk false true (some 0) (fun _ => none)) (-4)).1 rfl⟩

/-! ### Process outcomes: `log.Fatalf` terminates the host -/

/-- Outcome of a host-side operation that may terminate the whole process:
`exits` models `log.Fatalf` (which calls `os.Exit`) and unrecovered nil
dereferences / nil-function calls, as opposed to returning an error value. -/
inductive ProcOutcome (α : Type) where
  | ok (a : α)
  | exits (msg : String)
deriving DecidableEq

/-- Sequencing of process outcomes: an exit aborts everything after it. -/
def ProcOutcome.bind {α β : Type} :
    ProcOutcome α → (α → ProcOutcome β) → ProcOutcome β
  | .ok a, f => f a
  | .exits m, _ => .exits m

theorem ProcOutcome.bind_eq_ok {α β : Type} {x : ProcOutcome α}
    {f : α → ProcOutcome β} {b : β} (h : ProcOutcome.bind x f = .ok b) :
    ∃ a, x = .ok a ∧ f a = .ok b := by
  cases x with
  | ok a => exact ⟨a, rfl, h⟩
  | exits m => simp [ProcOutcome.bind] at h

/-! ### `readCString` and `Version` (`opus.go`) -/

/-- Model of `readCString` from `opus.go`: read bytes from linear memory until a null
terminator; fail if the walk leaves committed memory.  Linear memory is
modelled as a finite byte list, so the walk terminates. -/
def readCString (mem : List Nat) (offset : Nat) : Except String (List Nat) :=
  match h : mem[offset]? with
  | none => .error "failed to read byte"
  | some b =>
      if b = 0 then .ok []
      else
        match readCString mem (offset + 1) with
        | .error e => .error e
        | .ok rest => .ok (b :: rest)
termination_by mem.length - offset
decreasing_by
  have : offset < mem.length := by
    by_contra hc
    rw [List.getElem?_eq_none (Nat.le_of_not_lt hc)] at h
    exact Option.noConfusion h
  omega

/-- Environment for one `Version` call: context acquisition outcome, the
`opus_get_version_string` export, its call result and linear memory. -/
structure VersionEnv where
  ctxOk : Bool
  versionExported : Bool
  callResult : Option Nat
  mem : List Nat

/-- Model of `Version` from `opus.go`.  The source dereferences the context before
checking the acquisition error and calls the exported function without a nil
check, and every checked failure is `log.Fatalf`; all of these terminate the
host process (`exits`) rather than returning an error. -/
def Version (env : VersionEnv) : ProcOutcome (List Nat) :=
  if env.ctxOk = false then
    .exits "nil wasm context dereferenced before error check"
  else if env.versionExported = false then
    .exits "call on nil opus_get_version_string function"
  else
    match env.callResult with
    | none => .exits "Failed to call opus_get_version_string"
    | some ptr =>
        match readCString env.mem ptr with
        | .error _ => .exits "Failed to read version string"
        | .ok bytes => .ok bytes

/-! ### Constant loading (`wasm_context.go` / the C constant getters) -/

/-- Environment describing the module for the startup constant getters:
which functions are exported, the pointer each call returns (`none` models a
failed call), and `ReadUint32Le` on linear memory. -/
structure ModuleEnv where
  exportsFn : String → Bool
  callFn : String → Option Nat
  readU32 : Nat → Option Nat

/-- Model of `mustReadInt32Constant` from `wasm_context.go`: look up the getter,
call it, read the pointed-to `uint32` and reinterpret it as `int32`.  Every
failure is `log.Fatalf`, i.e. process termination. -/
def mustReadInt32Constant (m : ModuleEnv) (funcName : String) : ProcOutcome Int :=
  if m.exportsFn funcName = false then
    .exits ("Wasm function " ++ funcName ++ " not found")
  else
    match m.callFn funcName with
    | none => .exits ("Failed to call " ++ funcName)
    | some ptr =>
        match m.readU32 ptr with
        | none => .exits ("Failed to read memory for " ++ funcName)
        | some v => .ok (toSigned32 v)

/-- The constants `loadOpusConstants` reads once at startup. -/
structure OpusConstants where
  opusOk : Int
  opusBadArg : Int
  opusBufferTooSmall : Int
  opusInternalError : Int
  opusInvalidPacket : Int
  opusUnimplemented : Int
  opusInvalidState : Int
  opusAllocFail : Int
  opusBandwidthNarrowband : Int
  opusBandwidthMediumband : Int
  opusBandwidthWideband : Int
  opusBandwidthSuperWideband : Int
  opusBandwidthFullband : Int
  opusAuto : Int
  opusBitrateMax : Int
deriving DecidableEq

/-- Model of `loadOpusConstants` from `wasm_context.go`: read every named constant
through its constant-address getter, in source order. -/
def loadOpusConstants (m : ModuleEnv) : ProcOutcome OpusConstants :=
  ProcOutcome.bind (mustReadInt32Constant m "get_opus_ok_address") fun vOk =>
  ProcOutcome.bind (mustReadInt32Constant m "get_opus_bad_arg_address") fun vBad =>
  ProcOutcome.bind (mustReadInt32Constant m "get_opus_buffer_too_small_address") fun vBuf =>
  ProcOutcome.bind (mustReadInt32Constant m "get_opus_internal_error_address") fun vInt =>
  ProcOutcome.bind (mustReadInt32Constant m "get_opus_invalid_packet_address") fun vPkt =>
  ProcOutcome.bind (mustReadInt32Constant m "get_opus_unimplemented_address") fun vUni =>
  ProcOutcome.bind (mustReadInt32Constant m "get_opus_invalid_state_address") fun vSta =>
  ProcOutcome.bind (mustReadInt32Constant m "get_opus_alloc_fail_address") fun vAll =>
  ProcOutcome.bind (mustReadInt32Constant m "get_opus_bandwidth_narrowband_address") fun vNb =>
  ProcOutcome.bind (mustReadInt32Constant m "get_opus_bandwidth_mediumband_address") fun vMb =>
  ProcOutcome.bind (mustReadInt32Constant m "get_opus_bandwidth_wideband_address") fun vWb =>
  ProcOutcome.bind (mustReadInt32Constant m "get_opus_bandwidth_superwideband_address") fun vSwb =>
  ProcOutcome.bind (mustReadInt32Constant m "get_opus_bandwidth_fullband_address") fun vFb =>
  ProcOutcome.bind (mustReadInt32Constant m "get_opus_auto_address") fun vAuto =>
  ProcOutcome.bind (mustReadInt32Constant m "get_opus_bitrate_max_address") fun vMax =>
  .ok ⟨vOk, vBad, vBuf, vInt, vPkt, vUni, vSta, vAll, vNb, vMb, vWb, vSwb, vFb, vAuto, vMax⟩

/-! ### C1: sandbox entry-point failures terminate the process -/

/-- A process state whose wasm context acquisition fails. -/
def versionEnvCtxFail : VersionEnv :=
  { ctxOk := false, versionExported := true, callResult := some 0, mem := [] }

/-- A module that does not export the requested constant getter. -/
def moduleEnvMissingGetter : ModuleEnv :=
  { exportsFn := fun _ => false, callFn := fun _ => some 0,
    readU32 := fun _ => some 0 }

/-- C1 (evaluation at the failing inputs): on a failed context acquisition
`Version` terminates the host process instead of returning an error, and on
a missing export `mustReadInt32Constant` terminates the host process via
`log.Fatalf` instead of propagating an error. -/
theorem version_and_constant_read_abort_process :
    Version versionEnvCtxFail =
      .exits "nil wasm context dereferenced before error check" ∧
    mustReadInt32Constant moduleEnvMissingGetter "get_opus_ok_address" =
      .exits "Wasm function get_opus_ok_address not found" :=
  ⟨rfl, rfl⟩

/-! ### C3: which constants come from the module, which are hard-coded -/

/-- A module whose constant getters all expose the value `-42`
(`4294967254` is the `uint32` pattern of `-42`). -/
def moduleEnvMinus42 : ModuleEnv :=
  { exportsFn := fun _ => true, callFn := fun _ => some 0,
    readU32 := fun _ => some 4294967254 }

/-- C3 counterexample: the host-side named error value `ErrBadArg` is the
hard-coded literal `-1` and does not track the value the module exports.
With a module whose `get_opus_bad_arg_address` getter exposes `-42`,
`loadOpusConstants` succeeds with `opusBadArg = -42`, yet `ErrBadArg` is
still `-1`: a host-side literal is a second source of truth. -/
theorem errBadArg_is_second_source_of_truth :
    loadOpusConstants moduleEnvMinus42 =
      .ok ⟨-42, -42, -42, -42, -42, -42, -42, -42, -42, -42, -42, -42, -42, -42, -42⟩ ∧
    ErrBadArg ≠ (-42 : Int) :=
  ⟨by decide, by decide⟩

/-- C3 (amended): every constant that `loadOpusConstants` stores — the
error-code comparison values, the bandwidth values and the auto/max-bitrate
sentinels — equals the value read from the module's constant-address getter;
no host-side literal enters these fields.  (The exported named `Error`
values of `errors.go` remain hard-coded literals, per the counterexample.) -/
theorem loadOpusConstants_values_from_module (m : ModuleEnv) (K : OpusConstants)
    (h : loadOpusConstants m = .ok K) :
    mustReadInt32Constant m "get_opus_ok_address" = .ok K.opusOk ∧
    mustReadInt32Constant m "get_opus_bad_arg_address" = .ok K.opusBadArg ∧
    mustReadInt32Constant m "get_opus_buffer_too_small_address" = .ok K.opusBufferTooSmall ∧
    mustReadInt32Constant m "get_opus_internal_error_address" = .ok K.opusInternalError ∧
    mustReadInt32Constant m "get_opus_invalid_packet_address" = .ok K.opusInvalidPacket ∧
    mustReadInt32Constant m "get_opus_unimplemented_address" = .ok K.opusUnimplemented ∧
    mustReadInt32Constant m "get_opus_invalid_state_address" = .ok K.opusInvalidState ∧
    mustReadInt32Constant m "get_opus_alloc_fail_address" = .ok K.opusAllocFail ∧
    mustReadInt32Constant m "get_opus_bandwidth_narrowband_address" = .ok K.opusBandwidthNarrowband ∧
    mustReadInt32Constant m "get_opus_bandwidth_mediumband_address" = .ok K.opusBandwidthMediumband ∧
    mustReadInt32Constant m "get_opus_bandwidth_wideband_address" = .ok K.opusBandwidthWideband ∧
    mustReadInt32Constant m "get_opus_bandwidth_superwideband_address" = .ok K.opusBandwidthSuperWideband ∧
    mustReadInt32Constant m "get_opus_bandwidth_fullband_address" = .ok K.opusBandwidthFullband ∧
    mustReadInt32Constant m "get_opus_auto_address" = .ok K.opusAuto ∧
    mustReadInt32Constant m "get_opus_bitrate_max_address" = .ok K.opusBitrateMax := by
  unfold loadOpusConstants at h
  obtain ⟨vOk, h1, h⟩ := ProcOutcome.bind_eq_ok h
  obtain ⟨vBad, h2, h⟩ := ProcOutcome.bind_eq_ok h
  obtain ⟨vBuf, h3, h⟩ := ProcOutcome.bind_eq_ok h
  obtain ⟨vInt, h4, h⟩ := ProcOutcome.bind_eq_ok h
  obtain ⟨vPkt, h5, h⟩ := ProcOutcome.bind_eq_ok h
  obtain ⟨vUni, h6, h⟩ := ProcOutcome.bind_eq_ok h
  obtain ⟨vSta, h7, h⟩ := ProcOutcome.bind_eq_ok h
  obtain ⟨vAll, h8, h⟩ := ProcOutcome.bind_eq_ok h
  obtain ⟨vNb, h9, h⟩ := ProcOutcome.bind_eq_ok h
  obtain ⟨vMb, h10, h⟩ := ProcOutcome.bind_eq_ok h
  obtain ⟨vWb, h11, h⟩ := ProcOutcome.bind_eq_ok h
  obtain ⟨vSwb, h12, h⟩ := ProcOutcome.bind_eq_ok h
  obtain ⟨vFb, h13, h⟩ := ProcOutcome.bind_eq_ok h
  obtain ⟨vAuto, h14, h⟩ := ProcOutcome.bind_eq_ok h
  obtain ⟨vMax, h15, h⟩ := ProcOutcome.bind_eq_ok h
  cases h
  exact ⟨h1, h2, h3, h4, h5, h6, h7, h8, h9, h10, h11, h12, h13, h14, h15⟩

/-- Witness for the amended C3 claim at a concrete module. -/
theorem loadOpusConstants_values_from_module_witness :
    mustReadInt32Constant moduleEnvMinus42 "get_opus_ok_address" =
      .ok (OpusConstants.opusOk ⟨-42, -42, -42, -42, -42, -42, -42, -42, -42, -42, -42, -42, -42, -42, -42⟩) :=
  (loadOpusConstants_values_from_module moduleEnvMinus42
    ⟨-42, -42, -42, -42, -42, -42, -42, -42, -42, -42, -42, -42, -42, -42, -42⟩
    (by decide)).1

/-! ### Sandbox events and memory helpers (`wasm_context.go`) -/

/-- One interaction of the host with the sandbox.  The vocabulary includes
lock/unlock events so that the (absence of) host-side serialization around
an operation's steps is expressible; the embedded code never emits them
because the source contains no such synchronization. -/
inductive WasmEv where
  | evMalloc (size : Nat) (result : Option Nat)
  | evWrite (ptr : Nat) (len : Nat) (ok : Bool)
  | evCall (name : String) (result : Option Int)
  | evRead (ptr : Nat) (len : Nat) (result : Option (List Nat))
  | evFree (ptr : Nat)
  | evLock
  | evUnlock
deriving DecidableEq

/-- Response of the sandbox to one `writeToMemory` helper invocation:
the result of the `malloc` call (`none` = the call itself errored) and
whether the subsequent memory write succeeds. -/
structure AllocResp where
  mallocRes : Option Nat
  writeOk : Bool

/-- Model of `writeToMemory` from `wasm_context.go`: malloc `len(data)` bytes, check
for a null pointer on a non-zero request, copy the data in (freeing the
block again if the raw write fails), and return the pointer. -/
def writeToMemory (r : AllocResp) (data : List Nat) :
    Except String Nat × List WasmEv :=
  match r.mallocRes with
  | none => (.error "wasm malloc failed", [.evMalloc data.length none])
  | some ptr =>
      if ptr = 0 ∧ 0 < data.length then
        (.error "wasm malloc returned NULL for non-zero size",
         [.evMalloc data.length (some ptr)])
      else if 0 < data.length then
        if r.writeOk then
          (.ok ptr,
           [.evMalloc data.length (some ptr), .evWrite ptr data.length true])
        else
          (.error "wasm memory write failed",
           [.evMalloc data.length (some ptr), .evWrite ptr data.length false] ++
             (if ptr ≠ 0 then [.evFree ptr] else []))
      else
        (.ok ptr, [.evMalloc data.length (some ptr)])

/-- Model of `freeMemory` from the current `wasm_context.go` (the version
embedded in `src/README.md`, which `encoder.go` and `decoder.go` compile
against): a no-op on a null pointer; if the cached `Free` function is nil it
returns an error without invoking the sandbox free entry; otherwise it
invokes the free entry once (a failed call is reported as an error, but the
entry has been invoked).  Every caller modelled in this file discards the
returned error, so the model records only the emitted sandbox events. -/
def freeMemory (freeAvailable : Bool) (ptr : Nat) : List WasmEv :=
  if ptr = 0 then []
  else if freeAvailable = false then []
  else [.evFree ptr]

/-- Go's `copy(dst, src)`: copy `min(len(dst), len(src))` elements into the
prefix of `dst`, returning the number copied and the new contents. -/
def goCopy (dst src : List Nat) : Nat × List Nat :=
  let k := min dst.length src.length
  (k, src.take k ++ dst.drop k)

/-! ### Encoder (`encoder.go`) -/

/-- The Go `Encoder` struct: the shared context reference (modelled by
whether it is non-nil), the pointer to the `OpusEncoder` state block in wasm
memory, and the channel count. -/
structure Encoder where
  hasCtx : Bool
  encoderPtr : Nat
  channels : Nat

/-- The distinct error exits of `Encoder.Encode`, one per `return` site. -/
inductive EncErr where
  | uninitialized
  | noPcm
  | noTarget
  | misaligned
  | writePcmFailed
  | allocOutFailed
  | encodeFnMissing
  | encodeCallFailed
  | opusErr (code : Int)
  | reportedTooBig
  | readFailed
deriving DecidableEq

/-- Environment for one `Encoder.Encode` call: the responses to the two
`writeToMemory` invocations, availability of the cached `opus_encode`
function, the `int32` result of the encode call (`none` = trap / call
error), the behaviour of `Memory().Read`, and availability of the cached
`Free` function used by the deferred `freeMemory` calls. -/
structure EncodeEnv where
  pcmAlloc : AllocResp
  outAlloc : AllocResp
  encodeFnAvailable : Bool
  encodeRes : Option Int
  readOut : Nat → Nat → Option (List Nat)
  freeFnAvailable : Bool

/-- Result of one `Encoder.Encode` call: the returned `(int, error)` pair
(`Except` value), the final contents of the caller's `data` buffer, the
number of bytes copied into it, and the trace of sandbox interactions. -/
structure EncodeOut where
  result : Except EncErr Nat
  buffer : List Nat
  copied : Nat
  trace : List WasmEv

/-- Model of `Encoder.Encode` from `encoder.go`, step for step: the four input
validations, the two scratch allocations (input PCM bytes, zeroed output of
`len(data)` bytes), the `opus_encode` call, the negative-result and
oversized-result checks, the read-back and the `copy` into the caller's
buffer; the deferred `freeMemory` calls run on every exit path after the
corresponding allocation, in LIFO order. -/
def Encoder.encode (env : EncodeEnv) (enc : Encoder) (pcm : List Int)
    (data : List Nat) : EncodeOut :=
  if enc.encoderPtr = 0 then ⟨.error .uninitialized, data, 0, []⟩
  else if pcm.length = 0 then ⟨.error .noPcm, data, 0, []⟩
  else if data.length = 0 then ⟨.error .noTarget, data, 0, []⟩
  else if pcm.length % enc.channels ≠ 0 then ⟨.error .misaligned, data, 0, []⟩
  else if enc.hasCtx = false then ⟨.error .uninitialized, data, 0, []⟩
  else
    let pcmBytes := int16SliceToByteSlice pcm
    match writeToMemory env.pcmAlloc pcmBytes with
    | (.error _, tr1) => ⟨.error .writePcmFailed, data, 0, tr1⟩
    | (.ok pcmPtr, tr1) =>
        match writeToMemory env.outAlloc (List.replicate data.length 0) with
        | (.error _, tr2) =>
            ⟨.error .allocOutFailed, data, 0, tr1 ++ tr2 ++ freeMemory env.freeFnAvailable pcmPtr⟩
        | (.ok dataWasmPtr, tr2) =>
            if env.encodeFnAvailable = false then
              ⟨.error .encodeFnMissing, data, 0,
               tr1 ++ tr2 ++ freeMemory env.freeFnAvailable dataWasmPtr ++ freeMemory env.freeFnAvailable pcmPtr⟩
            else
              match env.encodeRes with
              | none =>
                  ⟨.error .encodeCallFailed, data, 0,
                   tr1 ++ tr2 ++ [.evCall "opus_encode" none] ++
                     freeMemory env.freeFnAvailable dataWasmPtr ++ freeMemory env.freeFnAvailable pcmPtr⟩
              | some n =>
                  if n < 0 then
                    ⟨.error (.opusErr n), data, 0,
                     tr1 ++ tr2 ++ [.evCall "opus_encode" (some n)] ++
                       freeMemory env.freeFnAvailable dataWasmPtr ++ freeMemory env.freeFnAvailable pcmPtr⟩
                  else if data.length < n.toNat then
                    ⟨.error .reportedTooBig, data, 0,
                     tr1 ++ tr2 ++ [.evCall "opus_encode" (some n)] ++
                       freeMemory env.freeFnAvailable dataWasmPtr ++ freeMemory env.freeFnAvailable pcmPtr⟩
                  else
                    match env.readOut dataWasmPtr n.toNat with
                    | none =>
                        ⟨.error .readFailed, data, 0,
                         tr1 ++ tr2 ++ [.evCall "opus_encode" (some n),
                           .evRead dataWasmPtr n.toNat none] ++
                           freeMemory env.freeFnAvailable dataWasmPtr ++ freeMemory env.freeFnAvailable pcmPtr⟩
                    | some bs =>
                        ⟨.ok n.toNat, (goCopy data bs).2, (goCopy data bs).1,
                         tr1 ++ tr2 ++ [.evCall "opus_encode" (some n),
                           .evRead dataWasmPtr n.toNat (some bs)] ++
                           freeMemory env.freeFnAvailable dataWasmPtr ++ freeMemory env.freeFnAvailable pcmPtr⟩

/-! ### C4: invalid caller input is rejected before any sandbox call -/

/-- C4: for every initialized encoder and every `pcm`/`data` pair with empty
`pcm`, empty `data`, or `len(pcm)` not a multiple of the channel count,
`Encode` returns a caller-input error, the caller's buffer is untouched and
the sandbox trace is empty: no allocation, no memory write, no encode call. -/
theorem encode_invalid_input_no_sandbox_call (env : EncodeEnv) (enc : Encoder)
    (pcm : List Int) (data : List Nat) (hinit : enc.encoderPtr ≠ 0)
    (hbad : pcm.length = 0 ∨ data.length = 0 ∨ pcm.length % enc.channels ≠ 0) :
    ∃ e, (e = EncErr.noPcm ∨ e = EncErr.noTarget ∨ e = EncErr.misaligned) ∧
      Encoder.encode env enc pcm data = ⟨.error e, data, 0, []⟩ := by
  by_cases hp : pcm.length = 0
  · exact ⟨.noPcm, Or.inl rfl, by simp [Encoder.encode, hinit, hp]⟩
  · by_cases hd : data.length = 0
    · exact ⟨.noTarget, Or.inr (Or.inl rfl),
        by simp [Encoder.encode, hinit, hp, hd]⟩
    · have hm : pcm.length % enc.channels ≠ 0 := by tauto
      exact ⟨.misaligned, Or.inr (Or.inr rfl),
        by simp [Encoder.encode, hinit, hp, hd, hm]⟩

/-- Witness for C4: a 2-channel encoder given 3 samples. -/
theorem encode_invalid_input_no_sandbox_call_witness :
    ∃ e, (e = EncErr.noPcm ∨ e = EncErr.noTarget ∨ e = EncErr.misaligned) ∧
      Encoder.encode
        ⟨⟨some 16, true⟩, ⟨some 32, true⟩, true, some 1, fun _ _ => none, true⟩
        ⟨true, 8, 2⟩ [1, 2, 3] [0, 0] = ⟨.error e, [0, 0], 0, []⟩ :=
  encode_invalid_input_no_sandbox_call _ _ _ _ (by decide)
    (Or.inr (Or.inr (by decide)))

/-! ### C10: the caller's buffer is never overrun -/

/-- C10: `Encode` never copies more bytes into the caller's buffer than its
length: the number of copied bytes is always at most `len(data)`, and when
the encode entry reports a byte count larger than `len(data)` the call
returns an error, copies nothing and leaves the buffer unchanged. -/
theorem encode_never_overruns_buffer (env : EncodeEnv) (enc : Encoder)
    (pcm : List Int) (data : List Nat) :
    (Encoder.encode env enc pcm data).copied ≤ data.length ∧
    (∀ n, env.encodeRes = some n → data.length < n.toNat →
      (∃ e, (Encoder.encode env enc pcm data).result = .error e) ∧
      (Encoder.encode env enc pcm data).copied = 0 ∧
      (Encoder.encode env enc pcm data).buffer = data) := by
  constructor
  · simp only [Encoder.encode]
    repeat' split
    all_goals simp [goCopy]
  · intro n hn hlt
    simp only [Encoder.encode, hn]
    repeat' split
    all_goals first
      | exact ⟨⟨_, rfl⟩, rfl, rfl⟩
      | omega

/-! ### C5: result handling after the encode entry point -/

/-- Number of sandbox function calls (encode-entry invocations) in a trace. -/
def countCalls (tr : List WasmEv) : Nat :=
  (tr.filter fun e => match e with | .evCall _ _ => true | _ => false).length

/-- A fully successful sandbox for one `Encode` call whose encode entry
reports 2 produced bytes. -/
def envReports2 : EncodeEnv :=
  { pcmAlloc := ⟨some 16, true⟩, outAlloc := ⟨some 32, true⟩,
    encodeFnAvailable := true, encodeRes := some 2,
    readOut := fun _ n => some (List.replicate n 7), freeFnAvailable := true }

/-- C5 counterexample: with a 1-byte destination buffer and an encode entry
returning `n = 2 ≥ 0`, the call does reach the encode entry point, yet
`Encode` does not read the 2 bytes and return 2 — it returns an error.  The
claim's `n ≥ 0` case is therefore false as stated; it only holds when the
reported count also fits the destination buffer. -/
theorem encode_nonneg_result_not_always_returned :
    (Encoder.encode envReports2 ⟨true, 8, 1⟩ [3] [0]).result =
      .error EncErr.reportedTooBig ∧
    WasmEv.evCall "opus_encode" (some 2) ∈
      (Encoder.encode envReports2 ⟨true, 8, 1⟩ [3] [0]).trace :=
  ⟨rfl, by decide⟩

/-- C5 (amended): for every `Encode` call that reaches the encode entry
point, if the entry returns `n < 0` then `Encode` returns `(0, Error(n))`
without retrying (exactly one encode-entry invocation in the trace); if the
entry returns `n ≥ 0` **and `n` is at most `len(data)`** and the read of the
output buffer yields the `n` bytes, `Encode` copies exactly those `n` bytes
into the prefix of the caller's destination and returns `n`, again with
exactly one encode-entry invocation; if `n` exceeds `len(data)` it returns
an error. -/
theorem encode_entry_result_semantics (env : EncodeEnv) (enc : Encoder)
    (pcm : List Int) (data : List Nat) (p1 p2 : Nat)
    (h0 : enc.encoderPtr ≠ 0) (hc : enc.hasCtx = true)
    (hp : pcm.length ≠ 0) (hd : data.length ≠ 0)
    (hm : pcm.length % enc.channels = 0)
    (ha1 : env.pcmAlloc.mallocRes = some p1) (hp1 : p1 ≠ 0)
    (hw1 : env.pcmAlloc.writeOk = true)
    (ha2 : env.outAlloc.mallocRes = some p2) (hp2 : p2 ≠ 0)
    (hw2 : env.outAlloc.writeOk = true)
    (hf : env.encodeFnAvailable = true) :
    (∀ n, env.encodeRes = some n → n < 0 →
      (Encoder.encode env enc pcm data).result = .error (.opusErr n) ∧
      (Encoder.encode env enc pcm data).copied = 0 ∧
      countCalls (Encoder.encode env enc pcm data).trace = 1) ∧
    (∀ n bs, env.encodeRes = some n → 0 ≤ n → n.toNat ≤ data.length →
      env.readOut p2 n.toNat = some bs → bs.length = n.toNat →
      (Encoder.encode env enc pcm data).result = .ok n.toNat ∧
      (Encoder.encode env enc pcm data).buffer = bs ++ data.drop n.toNat ∧
      (Encoder.encode env enc pcm data).copied = n.toNat ∧
      WasmEv.evRead p2 n.toNat (some bs) ∈ (Encoder.encode env enc pcm data).trace ∧
      countCalls (Encoder.encode env enc pcm data).trace = 1) ∧
    (∀ n, env.encodeRes = some n → data.length < n.toNat →
      (Encoder.encode env enc pcm data).result = .error .reportedTooBig) := by
  have hpcmlen : 0 < (int16SliceToByteSlice pcm).length := by
    rw [length_int16SliceToByteSlice]; omega
  have hdl : 0 < data.length := Nat.pos_of_ne_zero hd
  have hw1' : writeToMemory env.pcmAlloc (int16SliceToByteSlice pcm) =
      (.ok p1, [.evMalloc (int16SliceToByteSlice pcm).length (some p1),
        .evWrite p1 (int16SliceToByteSlice pcm).length true]) := by
    simp [writeToMemory, ha1, hp1, hpcmlen, hw1]
  have hw2' : writeToMemory env.outAlloc (List.replicate data.length 0) =
      (.ok p2, [.evMalloc data.length (some p2),
        .evWrite p2 data.length true]) := by
    simp [writeToMemory, ha2, hp2, hdl, hw2]
  refine ⟨?_, ?_, ?_⟩
  · intro n hn hneg
    cases hfa : env.freeFnAvailable <;>
      simp [Encoder.encode, h0, hc, hp, hd, hm, hw1', hw2', hf, hn, hneg,
        countCalls, freeMemory, hfa, hp1, hp2]
  · intro n bs hn hnn hle hread hbs
    have hnlt : ¬ data.length < n.toNat := by omega
    have hneg : ¬ n < 0 := by omega
    refine ⟨?_, ?_, ?_, ?_, ?_⟩
    · simp [Encoder.encode, h0, hc, hp, hd, hm, hw1', hw2', hf, hn, hneg,
        hnlt, hread]
    · simp [Encoder.encode, h0, hc, hp, hd, hm, hw1', hw2', hf, hn, hneg,
        hnlt, hread, goCopy]
      rw [show data.length ⊓ bs.length = n.toNat by omega, ← hbs,
        List.take_length]
    · simp [Encoder.encode, h0, hc, hp, hd, hm, hw1', hw2', hf, hn, hneg,
        hnlt, hread, goCopy]
      omega
    · cases hfa : env.freeFnAvailable <;>
        simp [Encoder.encode, h0, hc, hp, hd, hm, hw1', hw2', hf, hn, hneg,
          hnlt, hread, freeMemory, hfa, hp1, hp2]
    · cases hfa : env.freeFnAvailable <;>
        simp [Encoder.encode, h0, hc, hp, hd, hm, hw1', hw2', hf, hn, hneg,
          hnlt, hread, countCalls, freeMemory, hfa, hp1, hp2]
  · intro n hn hlt
    have hneg : ¬ n < 0 := by omega
    simp [Encoder.encode, h0, hc, hp, hd, hm, hw1', hw2', hf, hn, hneg, hlt]

/-- A fully successful sandbox whose encode entry reports 1 produced byte. -/
def envReports1 : EncodeEnv :=
  { pcmAlloc := ⟨some 16, true⟩, outAlloc := ⟨some 32, true⟩,
    encodeFnAvailable := true, encodeRes := some 1,
    readOut := fun _ n => some (List.replicate n 7), freeFnAvailable := true }

/-- Witness for the amended C5 claim: a successful encode of one sample
into a 2-byte buffer returns the 1 reported byte. -/
theorem encode_entry_result_semantics_witness :
    (Encoder.encode envReports1 ⟨true, 8, 1⟩ [3] [0, 0]).result =
      .ok (Int.toNat 1) :=
  ((encode_entry_result_semantics envReports1 ⟨true, 8, 1⟩ [3] [0, 0] 16 32
      (by decide) rfl (by decide) (by decide) (by decide) rfl (by decide)
      rfl rfl (by decide) rfl rfl).2.1 1 [7] rfl (by decide) (by decide)
      rfl rfl).1

/-- Witness for C10: an encode entry reporting 5 bytes against a 2-byte
destination yields an error, zero copied bytes and an unchanged buffer. -/
theorem encode_never_overruns_buffer_witness :
    (∃ e, (Encoder.encode envReports2 ⟨true, 8, 1⟩ [3] [0]).result = .error e) ∧
    (Encoder.encode envReports2 ⟨true, 8, 1⟩ [3] [0]).copied = 0 ∧
    (Encoder.encode envReports2 ⟨true, 8, 1⟩ [3] [0]).buffer = [0] :=
  (encode_never_overruns_buffer envReports2 ⟨true, 8, 1⟩ [3] [0]).2 2
    rfl (by decide)

/-! ### Construction (`Encoder.init` / `Decoder.Init`) -/

/-- The error exits of the init sequence: either a protocol-level failure
(`fmt.Errorf` in the source) or the structured `Error` mapped from a
non-OK init result code. -/
inductive InitErr where
  | protocol (msg : String)
  | opusErr (code : Int)
deriving DecidableEq

/-- Environment for one init sequence: availability and outcome of the
size query, the state-block `malloc`, and the init entry point. -/
structure InitEnv where
  getSizeAvailable : Bool
  getSizeRes : Option Nat
  mallocAvailable : Bool
  mallocRes : Option Nat
  initAvailable : Bool
  initRes : Option Int
  freeAvailable : Bool

/-- Result of one init sequence: the returned error (if any), the updated
handle pointer field, and the trace of sandbox interactions. -/
structure InitOut where
  result : Except InitErr Unit
  ptr : Nat
  trace : List WasmEv

/-- Model of `Encoder.init` from `encoder.go`: size query, state-block allocation,
`opus_encoder_init` call; on a non-OK result code the block is freed, the
pointer field reset to 0 and the mapped `Error` returned.  `opusOkV` is the
module-loaded `opusOk` comparison constant. -/
def Encoder.init (env : InitEnv) (opusOkV : Int) (enc : Encoder) : InitOut :=
  if enc.encoderPtr ≠ 0 then
    ⟨.error (.protocol "opus encoder already initialized"), enc.encoderPtr, []⟩
  else if enc.channels ≠ 1 ∧ enc.channels ≠ 2 then
    ⟨.error (.protocol "number of channels must be 1 or 2"), enc.encoderPtr, []⟩
  else if enc.hasCtx = false then
    ⟨.error (.protocol "wasm context or module not initialized"), enc.encoderPtr, []⟩
  else if env.getSizeAvailable = false then
    ⟨.error (.protocol "opus_encoder_get_size not found"), enc.encoderPtr, []⟩
  else
    match env.getSizeRes with
    | none =>
        ⟨.error (.protocol "opus_encoder_get_size call failed"), enc.encoderPtr,
         [.evCall "opus_encoder_get_size" none]⟩
    | some size =>
        if env.mallocAvailable = false then
          ⟨.error (.protocol "wasm malloc function not initialized"), enc.encoderPtr,
           [.evCall "opus_encoder_get_size" (some (size : Int))]⟩
        else
          match env.mallocRes with
          | none =>
              ⟨.error (.protocol "wasm malloc for encoder failed"), enc.encoderPtr,
               [.evCall "opus_encoder_get_size" (some (size : Int)),
                .evMalloc size none]⟩
          | some ptr =>
              if ptr = 0 then
                ⟨.error (.protocol "wasm malloc returned NULL for encoder"), ptr,
                 [.evCall "opus_encoder_get_size" (some (size : Int)),
                  .evMalloc size (some ptr)]⟩
              else if env.initAvailable = false then
                ⟨.error (.protocol "opus_encoder_init not found"), 0,
                 [.evCall "opus_encoder_get_size" (some (size : Int)),
                  .evMalloc size (some ptr)] ++ freeMemory env.freeAvailable ptr⟩
              else
                match env.initRes with
                | none =>
                    ⟨.error (.protocol "opus_encoder_init call failed"), 0,
                     [.evCall "opus_encoder_get_size" (some (size : Int)),
                      .evMalloc size (some ptr), .evCall "opus_encoder_init" none] ++
                       freeMemory env.freeAvailable ptr⟩
                | some errno =>
                    if errno ≠ opusOkV then
                      ⟨.error (.opusErr errno), 0,
                       [.evCall "opus_encoder_get_size" (some (size : Int)),
                        .evMalloc size (some ptr),
                        .evCall "opus_encoder_init" (some errno)] ++ freeMemory env.freeAvailable ptr⟩
                    else
                      ⟨.ok (), ptr,
                       [.evCall "opus_encoder_get_size" (some (size : Int)),
                        .evMalloc size (some ptr),
                        .evCall "opus_encoder_init" (some errno)]⟩

/-- The Go `Decoder` struct (`decoder.go`). -/
structure Decoder where
  hasCtx : Bool
  decoderPtr : Nat
  sample_rate : Int
  channels : Int

/-- Model of `Decoder.Init` from `decoder.go`: identical sequence to `Encoder.init`
but for the decoder entry points, additionally recording sample rate and
channel count on success. -/
def Decoder.Init (env : InitEnv) (opusOkV : Int) (dec : Decoder)
    (sampleRate channels : Int) : Except InitErr Unit × Decoder × List WasmEv :=
  if dec.decoderPtr ≠ 0 then
    (.error (.protocol "opus decoder already initialized"), dec, [])
  else if channels ≠ 1 ∧ channels ≠ 2 then
    (.error (.protocol "number of channels must be 1 or 2"), dec, [])
  else if dec.hasCtx = false then
    (.error (.protocol "wasm context or module not initialized"), dec, [])
  else if env.getSizeAvailable = false then
    (.error (.protocol "opus_decoder_get_size not found"), dec, [])
  else
    match env.getSizeRes with
    | none =>
        (.error (.protocol "opus_decoder_get_size call failed"), dec,
         [.evCall "opus_decoder_get_size" none])
    | some size =>
        if env.mallocAvailable = false then
          (.error (.protocol "wasm malloc function not initialized"), dec,
           [.evCall "opus_decoder_get_size" (some (size : Int))])
        else
          match env.mallocRes with
          | none =>
              (.error (.protocol "wasm malloc for decoder failed"), dec,
               [.evCall "opus_decoder_get_size" (some (size : Int)),
                .evMalloc size none])
          | some ptr =>
              if ptr = 0 then
                (.error (.protocol "wasm malloc returned NULL for decoder"),
                 { dec with decoderPtr := ptr },
                 [.evCall "opus_decoder_get_size" (some (size : Int)),
                  .evMalloc size (some ptr)])
              else if env.initAvailable = false then
                (.error (.protocol "opus_decoder_init not found"),
                 { dec with decoderPtr := 0 },
                 [.evCall "opus_decoder_get_size" (some (size : Int)),
                  .evMalloc size (some ptr)] ++ freeMemory env.freeAvailable ptr)
              else
                match env.initRes with
                | none =>
                    (.error (.protocol "opus_decoder_init call failed"),
                     { dec with decoderPtr := 0 },
                     [.evCall "opus_decoder_get_size" (some (size : Int)),
                      .evMalloc size (some ptr),
                      .evCall "opus_decoder_init" none] ++ freeMemory env.freeAvailable ptr)
                | some errno =>
                    if errno ≠ opusOkV then
                      (.error (.opusErr errno),
                       { dec with decoderPtr := 0 },
                       [.evCall "opus_decoder_get_size" (some (size : Int)),
                        .evMalloc size (some ptr),
                        .evCall "opus_decoder_init" (some errno)] ++ freeMemory env.freeAvailable ptr)
                    else
                      (.ok (),
                       { dec with decoderPtr := ptr, sample_rate := sampleRate, channels := channels },
                       [.evCall "opus_decoder_get_size" (some (size : Int)),
                        .evMalloc size (some ptr),
                        .evCall "opus_decoder_init" (some errno)])

/-- C6: whenever the init entry point returns a non-OK code, both
`Encoder.init` and `Decoder.Init` free the just-allocated state block,
reset the handle's pointer field to zero, and surface the code as the
mapped structured `Error`.  The cached `Free` function is assumed available
(`hfree`), which `initWasm` guarantees for any constructed context: it
validates every cached function at startup and fails initialization
otherwise, so a handle running init always has `Free` cached. -/
theorem init_nonOk_frees_resets_and_maps_error (env : InitEnv) (opusOkV : Int)
    (enc : Encoder) (dec : Decoder) (sr ch : Int) (size ptr : Nat) (errno : Int)
    (henc0 : enc.encoderPtr = 0) (hch : enc.channels = 1 ∨ enc.channels = 2)
    (hctx : enc.hasCtx = true) (hdec0 : dec.decoderPtr = 0)
    (hch2 : ch = 1 ∨ ch = 2) (hctx2 : dec.hasCtx = true)
    (hga : env.getSizeAvailable = true) (hgs : env.getSizeRes = some size)
    (hma : env.mallocAvailable = true) (hmr : env.mallocRes = some ptr)
    (hptr : ptr ≠ 0) (hia : env.initAvailable = true)
    (hir : env.initRes = some errno) (hno : errno ≠ opusOkV)
    (hfree : env.freeAvailable = true) :
    ((Encoder.init env opusOkV enc).result = .error (.opusErr errno) ∧
     (Encoder.init env opusOkV enc).ptr = 0 ∧
     WasmEv.evFree ptr ∈ (Encoder.init env opusOkV enc).trace) ∧
    ((Decoder.Init env opusOkV dec sr ch).1 = .error (.opusErr errno) ∧
     (Decoder.Init env opusOkV dec sr ch).2.1.decoderPtr = 0 ∧
     WasmEv.evFree ptr ∈ (Decoder.Init env opusOkV dec sr ch).2.2) := by
  have hche : ¬ (enc.channels ≠ 1 ∧ enc.channels ≠ 2) := by
    rcases hch with h | h <;> simp [h]
  have hchd : ¬ (ch ≠ 1 ∧ ch ≠ 2) := by
    rcases hch2 with h | h <;> simp [h]
  constructor
  · simp [Encoder.init, henc0, hche, hctx, hga, hgs, hma, hmr, hptr, hia,
      hir, hno, hfree, freeMemory]
  · simp [Decoder.Init, hdec0, hchd, hctx2, hga, hgs, hma, hmr, hptr, hia,
      hir, hno, hfree, freeMemory]

/-- Witness for C6 at concrete handles and a failing init code `-1`. -/
theorem init_nonOk_frees_resets_and_maps_error_witness :
    ((Encoder.init ⟨true, some 48, true, some 24, true, some (-1), true⟩ 0
        ⟨true, 0, 1⟩).result = .error (.opusErr (-1)) ∧
     (Encoder.init ⟨true, some 48, true, some 24, true, some (-1), true⟩ 0
        ⟨true, 0, 1⟩).ptr = 0 ∧
     WasmEv.evFree 24 ∈ (Encoder.init ⟨true, some 48, true, some 24, true,
        some (-1), true⟩ 0 ⟨true, 0, 1⟩).trace) ∧
    ((Decoder.Init ⟨true, some 48, true, some 24, true, some (-1), true⟩ 0
        ⟨true, 0, 0, 0⟩ 48000 1).1 = .error (.opusErr (-1)) ∧
     (Decoder.Init ⟨true, some 48, true, some 24, true, some (-1), true⟩ 0
        ⟨true, 0, 0, 0⟩ 48000 1).2.1.decoderPtr = 0 ∧
     WasmEv.evFree 24 ∈ (Decoder.Init ⟨true, some 48, true, some 24, true,
        some (-1), true⟩ 0 ⟨true, 0, 0, 0⟩ 48000 1).2.2) :=
  init_nonOk_frees_resets_and_maps_error
    ⟨true, some 48, true, some 24, true, some (-1), true⟩ 0 ⟨true, 0, 1⟩
    ⟨true, 0, 0, 0⟩ 48000 1 48 24 (-1) rfl (Or.inl rfl) rfl rfl
    (Or.inl rfl) rfl rfl rfl rfl rfl (by decide) rfl rfl (by decide) rfl

/-! ### C7: finalizer-driven release (`runtime.SetFinalizer` bodies) -/

/-- Number of sandbox free calls in a trace. -/
def countFrees (tr : List WasmEv) : Nat :=
  (tr.filter fun e => match e with | .evFree _ => true | _ => false).length

/-- The finalizer installed by `NewEncoder`: free the state pointer only
when it is non-zero (and the context and cached `Free` function are
available), then mark it freed by zeroing the field.  A `Free` call error is
only logged; the pointer is still zeroed and nothing is raised. -/
def encoderFinalizer (freeAvailable : Bool) (e : Encoder) :
    Encoder × List WasmEv :=
  if e.encoderPtr ≠ 0 ∧ e.hasCtx = true ∧ freeAvailable = true then
    ({ e with encoderPtr := 0 }, [.evFree e.encoderPtr])
  else (e, [])

/-- The finalizer installed by `NewDecoder`, identical in structure. -/
def decoderFinalizer (freeAvailable : Bool) (d : Decoder) :
    Decoder × List WasmEv :=
  if d.decoderPtr ≠ 0 ∧ d.hasCtx = true ∧ freeAvailable = true then
    ({ d with decoderPtr := 0 }, [.evFree d.decoderPtr])
  else (d, [])

/-- C7: the reclamation-triggered cleanup frees the handle's state pointer
exactly once: at most one free per invocation, no free at all when the
pointer is already zero, the pointer is zeroed after a real free, and a
second invocation on the resulting handle performs no free and changes
nothing (for the encoder and the decoder finalizer alike). -/
theorem finalizer_frees_exactly_once (fa : Bool) (e : Encoder) (d : Decoder) :
    (countFrees (encoderFinalizer fa e).2 ≤ 1 ∧
     (e.encoderPtr = 0 → encoderFinalizer fa e = (e, [])) ∧
     (e.encoderPtr ≠ 0 → e.hasCtx = true → fa = true →
       encoderFinalizer fa e = ({ e with encoderPtr := 0 }, [.evFree e.encoderPtr])) ∧
     encoderFinalizer fa (encoderFinalizer fa e).1 = ((encoderFinalizer fa e).1, [])) ∧
    (countFrees (decoderFinalizer fa d).2 ≤ 1 ∧
     (d.decoderPtr = 0 → decoderFinalizer fa d = (d, [])) ∧
     (d.decoderPtr ≠ 0 → d.hasCtx = true → fa = true →
       decoderFinalizer fa d = ({ d with decoderPtr := 0 }, [.evFree d.decoderPtr])) ∧
     decoderFinalizer fa (decoderFinalizer fa d).1 = ((decoderFinalizer fa d).1, [])) := by
  constructor
  · refine ⟨?_, ?_, ?_, ?_⟩
    · unfold encoderFinalizer; split <;> simp [countFrees]
    · intro h0; simp [encoderFinalizer, h0]
    · intro h1 h2 h3; simp [encoderFinalizer, h1, h2, h3]
    · unfold encoderFinalizer
      split
      · simp
      · next hcond => simp [hcond]
  · refine ⟨?_, ?_, ?_, ?_⟩
    · unfold decoderFinalizer; split <;> simp [countFrees]
    · intro h0; simp [decoderFinalizer, h0]
    · intro h1 h2 h3; simp [decoderFinalizer, h1, h2, h3]
    · unfold decoderFinalizer
      split
      · simp
      · next hcond => simp [hcond]

/-- Witness for C7: a live encoder handle and a live decoder handle. -/
theorem finalizer_frees_exactly_once_witness :
    encoderFinalizer true ⟨true, 24, 1⟩ = (⟨true, 0, 1⟩, [.evFree 24]) ∧
    decoderFinalizer true ⟨true, 36, 48000, 2⟩ =
      (⟨true, 0, 48000, 2⟩, [.evFree 36]) :=
  ⟨((finalizer_frees_exactly_once true ⟨true, 24, 1⟩
      ⟨true, 36, 48000, 2⟩).1).2.2.1 (by decide) rfl rfl,
   ((finalizer_frees_exactly_once true ⟨true, 24, 1⟩
      ⟨true, 36, 48000, 2⟩).2).2.2.1 (by decide) rfl rfl⟩

/-! ### C2: instance sharing and step interleaving -/

/-- The process-wide once-cell of `wasm_context.go`: `wasmInitOnce`,
`globalWasmContext` (abstracted to an instance id) and `wasmInitErr`.
`getWasmContext` runs initialization at most once — later callers get the
stored instance (or the stored error), never a fresh one. -/
structure OnceCell where
  done : Bool
  err : Bool
  value : Nat

/-- Model of `GetWasmContext`/`initWasm` from `wasm_context.go`: on first use either
record a failure (replayed to all later callers) or store the single fresh
instance; afterwards always hand out the stored instance. -/
def getWasmContext (p : OnceCell) (freshId : Nat) (initFails : Bool) :
    Except Unit Nat × OnceCell :=
  if p.done = true then
    (if p.err = true then .error () else .ok p.value, p)
  else if initFails then (.error (), ⟨true, true, 0⟩)
  else (.ok freshId, ⟨true, false, freshId⟩)

/-- Tag each step of an operation's trace with the operation it belongs to. -/
def tagSteps (t : Bool) (tr : List WasmEv) : List (Bool × WasmEv) :=
  tr.map fun e => (t, e)

/-- Predicate `isInterleavingB xs ys zs`: `zs` is an order-preserving merge of the two
tagged step sequences `xs` and `ys`. -/
def isInterleavingB :
    List (Bool × WasmEv) → List (Bool × WasmEv) → List (Bool × WasmEv) → Bool
  | [], [], [] => true
  | _, _, [] => false
  | xs, ys, z :: zs =>
      (match xs with
       | x :: xs2 => decide (x = z) && isInterleavingB xs2 ys zs
       | [] => false) ||
      (match ys with
       | y :: ys2 => decide (y = z) && isInterleavingB xs ys2 zs
       | [] => false)

/-- A trace acquires no host-side lock. -/
def hasNoLock (tr : List WasmEv) : Bool :=
  tr.all fun e => match e with
    | .evLock => false
    | .evUnlock => false
    | _ => true

/-- A sandbox that lets one whole `Encode` operation succeed. -/
def encodeOpEnv : EncodeEnv :=
  { pcmAlloc := ⟨some 64, true⟩, outAlloc := ⟨some 128, true⟩,
    encodeFnAvailable := true, encodeRes := some 1,
    readOut := fun _ n => some (List.replicate n 9), freeFnAvailable := true }

/-- The allocate/write/call/read/free step sequence of one successful
`Encoder.Encode` operation. -/
def encodeOpTrace : List WasmEv :=
  (Encoder.encode encodeOpEnv ⟨true, 8, 1⟩ [5] [0, 0]).trace

/-- A strictly alternating schedule of two concurrent copies of the
operation's steps. -/
def mixedSchedule : List (Bool × WasmEv) :=
  ((tagSteps false encodeOpTrace).zip (tagSteps true encodeOpTrace)).flatMap
    fun p => [p.1, p.2]

/-- C2 (evaluation at the failing configuration): two successive context
acquisitions hand every handle the same single instance (the once-cell
ignores the fresh instance available to the second caller); the step
sequence of an `Encode` operation takes no lock; and a non-serialized
interleaving of two operations' steps on that shared instance exists — the
strictly alternating schedule is a merge of the two step sequences but is
neither "all of A, then all of B" nor the reverse. -/
theorem shared_instance_admits_unserialized_interleaving :
    (getWasmContext (getWasmContext ⟨false, false, 0⟩ 7 false).2 42 false).1 =
      .ok 7 ∧
    hasNoLock encodeOpTrace = true ∧
    isInterleavingB (tagSteps false encodeOpTrace) (tagSteps true encodeOpTrace)
      mixedSchedule = true ∧
    mixedSchedule ≠ tagSteps false encodeOpTrace ++ tagSteps true encodeOpTrace ∧
    mixedSchedule ≠ tagSteps true encodeOpTrace ++ tagSteps false encodeOpTrace := by
  refine ⟨rfl, rfl, ?_, ?_, ?_⟩ <;> decide
